import Mathlib

/-!
Verification development for the locog log service.

The definitions below are a shallow embedding of the Go sources:
  internal/models/log.go   (Log, LogFilter, FilterOptions)
  internal/db/sqlite.go    (InsertLog, InsertBatch, QueryLogs, GetFilterOptions,
                            getDistinctValues, DeleteOldLogs, filterCache)
  cmd/logservice/main.go   (ipRateLimiter, getClientIP, handleIngest,
                            handleQueryLogs, runCleanup, validateLog)
  the websocket hub file   (wsHub.run, broadcastLogs)

Modelling conventions:
  - time.Time and time.Duration are modelled as rationals, measured in seconds;
    the Go zero time is modelled as 0, so t.IsZero() becomes t = 0.
  - machine integers (int, int64) are modelled as Int / Nat; none of the code
    paths here depend on overflow.
  - encoding/json is abstracted by its observable behaviour: a metadata
    document either marshals to a JSON string or fails to marshal, and a
    persisted blob either unmarshals or is garbage.
  - database and channel effects are explicit state passing; the possibility
    of engine-level insert failures is an explicit failure environment DBEnv.
-/

namespace Locog

/-- Time instants and durations, in seconds. The Go zero time is 0. -/
abbrev Time := ℚ

/-- A metadata document (Go: map[string]interface{} with arbitrary nesting),
abstracted by its observable behaviour under json.Marshal: either it marshals
to some JSON text, or marshalling fails (for values json cannot encode). -/
inductive MetaDoc where
  | doc (json : String)
  | bad (tag : String)
deriving DecidableEq, Repr

/-- Behaviour of json.Marshal on a metadata document. -/
def jsonMarshal : MetaDoc → Option String
  | .doc s => some s
  | .bad _ => none

/-- A persisted metadata blob (the bytes stored in the metadata column):
either well formed JSON that unmarshals, or garbage that fails to unmarshal. -/
inductive Blob where
  | wellFormed (json : String)
  | garbage (raw : String)
deriving DecidableEq, Repr

/-- Behaviour of json.Unmarshal on a stored blob: a well formed blob yields
the document it encodes; garbage yields nothing (the error case). -/
def jsonUnmarshalBlob : Blob → Option MetaDoc
  | .wellFormed s => some (.doc s)
  | .garbage _ => none

/-- models.Log from internal/models/log.go. -/
structure Log where
  id : Int := 0
  timestamp : Time := 0
  service : String := ""
  level : String := ""
  message : String := ""
  metadata : Option MetaDoc := none
  host : String := ""
  createdAt : Time := 0
deriving DecidableEq, Repr

/-- models.LogFilter from internal/models/log.go. Zero values ("" and 0 and
none) mean the criterion is absent, exactly as in the Go code. -/
structure LogFilter where
  service : String := ""
  level : String := ""
  host : String := ""
  startTime : Option Time := none
  endTime : Option Time := none
  limit : Int := 0
  search : String := ""
deriving DecidableEq, Repr

/-- models.FilterOptions from internal/models/log.go. -/
structure FilterOptions where
  services : List String := []
  levels : List String := []
  hosts : List String := []
deriving DecidableEq, Repr

/-- One row of the logs table (schema.sql). The metadata column holds the
raw marshalled bytes; none models SQL NULL (a nil []byte). -/
structure Row where
  id : Int
  timestamp : Time
  service : String
  level : String
  message : String
  metadata : Option Blob
  host : String
  createdAt : Time
deriving DecidableEq, Repr

/-- The state of db.DB: the logs table rows, kept in insertion order (ids are
assigned by AUTOINCREMENT, so they increase along the list), the next rowid,
and the filterCache fields (options and expires) from sqlite.go. -/
structure DBState where
  rows : List Row := []
  nextId : Int := 1
  cacheOptions : FilterOptions := {}
  cacheExpires : Time := 0
deriving DecidableEq, Repr

/-- filterCacheTTL = 30 * time.Second from sqlite.go, in seconds. -/
def filterCacheTTL : Time := 30

/-- Failure environment for the storage engine: which of the underlying
database operations of one request fail. execFail i says the i-th
stmt.Exec of a batch fails; singleFail says the single-insert Exec fails. -/
structure DBEnv where
  beginFail : Bool := false
  prepareFail : Bool := false
  execFail : Nat → Bool := fun _ => false
  commitFail : Bool := false
  singleFail : Bool := false

/-- The row written for a log entry: the engine assigns the id (rowid) and
created_at (CURRENT_TIMESTAMP); the remaining columns come from the entry. -/
def rowOfLog (nid : Int) (now : Time) (l : Log) (blob : Option Blob) : Row :=
  { id := nid, timestamp := l.timestamp, service := l.service, level := l.level,
    message := l.message, metadata := blob, host := l.host, createdAt := now }

/-- Marshalling of metadata on the single-insert path (db.InsertLog): a nil
map stores NULL; a marshal failure is returned as an error. -/
def marshalStrict : Option MetaDoc → Except Unit (Option Blob)
  | none => .ok none
  | some d =>
    match jsonMarshal d with
    | none => .error ()
    | some s => .ok (some (.wellFormed s))

/-- db.InsertLog from sqlite.go: marshal metadata (returning the error on
failure), then insert one row; an Exec failure surfaces as an error with no
effect on the table. -/
def InsertLog (env : DBEnv) (st : DBState) (now : Time) (l : Log) : Except Unit DBState :=
  match marshalStrict l.metadata with
  | .error _ => .error ()
  | .ok blob =>
    if env.singleFail then .error ()
    else .ok { st with rows := st.rows ++ [rowOfLog st.nextId now l blob],
                       nextId := st.nextId + 1 }

/-- Marshalling of metadata on the batch path (db.InsertBatch): a marshal
failure is logged and the entry continues with nil metadata. -/
def batchBlob : Option MetaDoc → Option Blob
  | none => none
  | some d => (jsonMarshal d).map Blob.wellFormed

/-- The per-entry loop of db.InsertBatch: marshal metadata (tolerating
failures with nil metadata) and Exec each insert; the first Exec failure
aborts the loop with an error. Returns the rows the transaction would add. -/
def insertLoop (env : DBEnv) (now : Time) (nid : Int) (i : Nat) :
    List Log → Except Unit (List Row)
  | [] => .ok []
  | l :: ls =>
    let blob := batchBlob l.metadata
    if env.execFail i then .error ()
    else (insertLoop env now (nid + 1) (i + 1) ls).map (rowOfLog nid now l blob :: ·)

/-- db.InsertBatch from sqlite.go: Begin, Prepare, the Exec loop, Commit;
any failure returns an error and, because of the deferred Rollback and the
transaction semantics, leaves the table untouched. On success all rows of
the request are appended. -/
def InsertBatch (env : DBEnv) (st : DBState) (now : Time) (logs : List Log) :
    Except Unit DBState :=
  if env.beginFail then .error ()
  else if env.prepareFail then .error ()
  else
    match insertLoop env now st.nextId 0 logs with
    | .error _ => .error ()
    | .ok newRows =>
      if env.commitFail then .error ()
      else .ok { st with rows := st.rows ++ newRows,
                         nextId := st.nextId + (logs.length : Int) }

/-- The rows a successful batch insert appends: ids continue from the next
rowid, created_at is the insertion time, and a metadata marshal failure
degrades that one entry to empty metadata (batchBlob). -/
def mkRows (nid : Int) (now : Time) : List Log → List Row
  | [] => []
  | l :: ls => rowOfLog nid now l (batchBlob l.metadata) :: mkRows (nid + 1) now ls

/-- Whether any of the underlying operations of a batch insert of n entries
fails in the environment: Begin, Prepare, any of the n Execs, or Commit. -/
def batchFails (env : DBEnv) (n : Nat) : Bool :=
  env.beginFail || env.prepareFail || (List.range n).any env.execFail || env.commitFail

/-- SQLite LIKE folds ASCII letters only; this is its case folding. -/
def sqliteLowerChar (c : Char) : Char :=
  if 'A' ≤ c ∧ c ≤ 'Z' then Char.ofNat (c.toNat + 32) else c

/-- Whether needle occurs at the head of hay. -/
def matchHere : List Char → List Char → Bool
  | _, [] => true
  | [], _ :: _ => false
  | a :: as, b :: bs => a == b && matchHere as bs

/-- Whether needle occurs anywhere in hay. -/
def matchAnywhere (hay needle : List Char) : Bool :=
  match hay with
  | [] => matchHere [] needle
  | _ :: t => matchHere hay needle || matchAnywhere t needle

/-- The predicate of the SQL clause message LIKE percent-search-percent:
a case-insensitive (ASCII) substring test. -/
def likeContains (message search : String) : Bool :=
  matchAnywhere (message.toList.map sqliteLowerChar) (search.toList.map sqliteLowerChar)

/-- The WHERE clause built by db.QueryLogs: each criterion is added only when
supplied, all conjunctively; timestamp bounds are inclusive. -/
def matchesFilter (f : LogFilter) (r : Row) : Bool :=
  (f.service == "" || r.service == f.service) &&
  (f.level == "" || r.level == f.level) &&
  (f.host == "" || r.host == f.host) &&
  (match f.startTime with | none => true | some t => decide (t ≤ r.timestamp)) &&
  (match f.endTime with | none => true | some t => decide (r.timestamp ≤ t)) &&
  (f.search == "" || likeContains r.message f.search)

/-- The result order of ORDER BY timestamp DESC as executed by SQLite on this
schema: the scan of idx_timestamp (timestamp DESC) yields rows by descending
timestamp and, within equal timestamps, by ascending rowid (index entries on
an equal key are ordered by rowid). rowBefore a b says a is emitted no later
than b. -/
def rowBefore (a b : Row) : Prop :=
  b.timestamp < a.timestamp ∨ (a.timestamp = b.timestamp ∧ a.id ≤ b.id)

instance : DecidableRel rowBefore := fun a b =>
  inferInstanceAs (Decidable (b.timestamp < a.timestamp ∨
    (a.timestamp = b.timestamp ∧ a.id ≤ b.id)))

instance : IsTotal Row rowBefore where
  total a b := by
    rcases lt_trichotomy a.timestamp b.timestamp with h | h | h
    · exact Or.inr (Or.inl h)
    · rcases le_total a.id b.id with hid | hid
      · exact Or.inl (Or.inr ⟨h, hid⟩)
      · exact Or.inr (Or.inr ⟨h.symm, hid⟩)
    · exact Or.inl (Or.inl h)

instance : IsTrans Row rowBefore where
  trans a b c hab hbc := by
    rcases hab with h1 | ⟨e1, i1⟩
    · rcases hbc with h2 | ⟨e2, _⟩
      · exact Or.inl (h2.trans h1)
      · exact Or.inl (e2 ▸ h1)
    · rcases hbc with h2 | ⟨e2, i2⟩
      · exact Or.inl (e1 ▸ h2)
      · exact Or.inr ⟨e1.trans e2, i1.trans i2⟩

/-- The limit applied by db.QueryLogs: a caller limit of at most 0 becomes
the default 1000. -/
def effectiveLimit (l : Int) : Int := if l ≤ 0 then 1000 else l

/-- The rows selected by db.QueryLogs before scanning: WHERE, then
ORDER BY timestamp DESC, then LIMIT. -/
def selectedRows (st : DBState) (f : LogFilter) : List Row :=
  (List.insertionSort rowBefore (st.rows.filter (matchesFilter f))).take
    (effectiveLimit f.limit).toNat

/-- The scan step of db.QueryLogs for one row: the metadata blob is
unmarshalled when non-empty, and the unmarshal error is ignored, so an
undecodable blob leaves the Metadata field nil. -/
def logOfRow (r : Row) : Log :=
  { id := r.id, timestamp := r.timestamp, service := r.service, level := r.level,
    message := r.message, metadata := r.metadata.bind jsonUnmarshalBlob,
    host := r.host, createdAt := r.createdAt }

/-- db.QueryLogs from sqlite.go. -/
def QueryLogs (st : DBState) (f : LogFilter) : List Log :=
  (selectedRows st f).map logOfRow

/-- allowedFilterColumns from sqlite.go. -/
def allowedFilterColumns : List String := ["service", "level", "host"]

/-- The value of an allow-listed column in a row. -/
def columnValue (column : String) (r : Row) : String :=
  if column == "service" then r.service
  else if column == "level" then r.level
  else r.host

/-- db.getDistinctValues from sqlite.go: any column outside the allow-list
fails closed with an error before any query is issued; an allow-listed
column runs SELECT DISTINCT col ... ORDER BY col LIMIT 100, which yields the
distinct values of the column in ascending order, capped at 100. -/
def getDistinctValues (st : DBState) (column : String) : Except String (List String) :=
  if column ∈ allowedFilterColumns then
    .ok ((List.insertionSort (fun a b : String => a ≤ b)
      (st.rows.map (columnValue column))).dedup.take 100)
  else
    .error ("invalid column name: " ++ column)

/-- db.GetFilterOptions from sqlite.go. The third component counts the
distinct-value queries issued to the storage engine (0 on a cache hit, 3 on
a refresh). On a miss the three lists are recomputed, the snapshot is
replaced with expiry now + filterCacheTTL, and the fresh value is returned. -/
def GetFilterOptions (st : DBState) (now : Time) :
    Except String (FilterOptions × DBState × Nat) :=
  if now < st.cacheExpires then
    .ok (st.cacheOptions, st, 0)
  else
    match getDistinctValues st "service" with
    | .error e => .error e
    | .ok ss =>
      match getDistinctValues st "level" with
      | .error e => .error e
      | .ok ls =>
        match getDistinctValues st "host" with
        | .error e => .error e
        | .ok hs =>
          let options : FilterOptions := ⟨ss, ls, hs⟩
          .ok (options,
               { st with cacheOptions := options,
                         cacheExpires := now + filterCacheTTL }, 3)

/-- db.DeleteOldLogs from sqlite.go: DELETE FROM logs WHERE timestamp <
cutoff with cutoff = now - olderThan; returns the new state and the number
of rows affected. -/
def DeleteOldLogs (st : DBState) (now : Time) (olderThan : Time) : DBState × Nat :=
  let cutoff := now - olderThan
  ({ st with rows := st.rows.filter (fun r => !decide (r.timestamp < cutoff)) },
   (st.rows.filter (fun r => decide (r.timestamp < cutoff))).length)

/-- retentionPeriod = 30 * 24 * time.Hour from main.go, in seconds. -/
def retentionPeriod : Time := 30 * 24 * 3600

/-- server.runCleanup from main.go: delete logs older than 30 days. (The
5-minute context timeout and the logging around the call are not modelled.) -/
def runCleanup (st : DBState) (now : Time) : DBState × Nat :=
  DeleteOldLogs st now retentionPeriod

/-- One token bucket of golang.org/x/time/rate, as created by
rate.NewLimiter: the zero last time together with the burst-capped refill
means the bucket is observably at full burst capacity from creation on. -/
structure Bucket where
  tokens : ℚ
  last : Time
deriving DecidableEq, Repr

/-- ipRateLimiter from main.go: the configured rate and burst plus the
per-identity bucket map (sync.Map), modelled as an association list. -/
structure LimiterState where
  rate : ℚ
  burst : Nat
  buckets : List (String × Bucket) := []
deriving Repr

/-- ipRateLimiter.getLimiter from main.go: return the existing bucket for
the identity, or lazily create one at full burst capacity and store it. -/
def getLimiter (l : LimiterState) (ip : String) : Bucket × LimiterState :=
  match List.lookup ip l.buckets with
  | some b => (b, l)
  | none =>
    let b : Bucket := { tokens := (l.burst : ℚ), last := 0 }
    (b, { l with buckets := (ip, b) :: l.buckets })

/-- rate.Limiter.Allow at a given instant: refill tokens for the elapsed
time, capped at burst; if a full token is available (and the burst admits
one request at all) consume it, otherwise deny and leave the bucket
unchanged. -/
def limiterAllow (rate : ℚ) (burst : Nat) (b : Bucket) (now : Time) : Bool × Bucket :=
  let tk := min (b.tokens + max (now - b.last) 0 * rate) (burst : ℚ)
  if 1 ≤ tk ∧ 1 ≤ burst then (true, { tokens := tk - 1, last := now })
  else (false, b)

/-- Store a bucket back under its key (sync.Map semantics: replace). -/
def setBucket : List (String × Bucket) → String → Bucket → List (String × Bucket)
  | [], ip, b => [(ip, b)]
  | (k, v) :: t, ip, b => if k == ip then (ip, b) :: t else (k, v) :: setBucket t ip b

/-- The admission decision of handleIngest: getLimiter(ip).Allow(). -/
def serverAllow (l : LimiterState) (ip : String) (now : Time) : Bool × LimiterState :=
  let p := getLimiter l ip
  let q := limiterAllow p.2.rate p.2.burst p.1 now
  (q.1, { p.2 with buckets := setBucket p.2.buckets ip q.2 })

/-- wsClient from the websocket hub file: the send channel is modelled as
the bounded queue of pending outbound payloads (capacity 256 in the source). -/
structure wsClient where
  id : Nat
  cap : Nat := 256
  queue : List String := []
deriving DecidableEq, Repr

/-- wsHub from the websocket hub file: the live client set owned by the run
loop. -/
structure wsHub where
  clients : List wsClient := []
deriving DecidableEq, Repr

/-- One delivery attempt of the broadcast arm of wsHub.run: the non-blocking
send succeeds when the queue has room; a full queue evicts the client
(delete from the set and close its channel) instead of blocking. -/
def deliverOne (msg : String) (c : wsClient) : Option wsClient :=
  if c.queue.length < c.cap then some { c with queue := c.queue ++ [msg] }
  else none

/-- The broadcast arm of wsHub.run: attempt delivery of one serialized
payload to every currently registered client; full clients are removed. -/
def hubBroadcast (h : wsHub) (msg : String) : wsHub :=
  { clients := h.clients.filterMap (deliverOne msg) }

/-- Whether json.Marshal succeeds on a log entry (it fails exactly when the
metadata document is unmarshalable). -/
def logMarshalable (l : Log) : Bool :=
  match l.metadata with
  | some (.bad _) => false
  | _ => true

/-- The wire rendering of one log entry in a broadcast payload. -/
def encodeLog (l : Log) : String :=
  l.service ++ "|" ++ l.level ++ "|" ++ l.message ++ "|" ++ l.host

/-- json.Marshal of a batch of log entries: fails when any entry fails to
marshal, otherwise produces one payload determined by the entries and their
order. -/
def encodeLogs (logs : List Log) : Option String :=
  if logs.all logMarshalable then
    some ("[" ++ String.intercalate "," (logs.map encodeLog) ++ "]")
  else none

/-- wsHub.broadcastLogs: serialize the batch once; on a marshal error log
and return without sending; otherwise hand the single payload to the hub. -/
def broadcastLogs (h : wsHub) (logs : List Log) : wsHub :=
  match encodeLogs logs with
  | none => h
  | some msg => hubBroadcast h msg

/-- The decoded view of an ingestion request body: it parses as an array, or
fails as an array but parses as a single object, or fails as both. -/
inductive Payload where
  | arr (logs : List Log)
  | single (l : Log)
  | invalid
deriving DecidableEq, Repr

/-- An ingestion HTTP request, reduced to the parts handleIngest reads.
xForwardedFor is the X-Forwarded-For header ("" when absent, as with
http.Header.Get); bodySize is the length of the body in bytes. -/
structure Request where
  method : String := "POST"
  xForwardedFor : String := ""
  remoteAddr : String := ""
  bodySize : Nat := 0
  payload : Payload := .arr []
deriving DecidableEq, Repr

/-- strings.TrimSpace: remove leading and trailing whitespace. Implemented
structurally on the character list so that it computes by reduction. -/
def goTrimSpace (s : String) : String :=
  ⟨((s.data.dropWhile Char.isWhitespace).reverse.dropWhile Char.isWhitespace).reverse⟩

/-- The first address of an X-Forwarded-For list: the part before the first
comma, with surrounding space trimmed. -/
def firstForwarded (xff : String) : String :=
  goTrimSpace ((xff.splitOn ",").headD xff)

/-- net.SplitHostPort reduced to what getClientIP needs: an address of the
form host colon port yields the host; any other shape is an error, in which
case getClientIP falls back to the whole address. -/
def hostOfAddr (addr : String) : String :=
  match addr.splitOn ":" with
  | [h, _] => h
  | _ => addr

/-- getClientIP from main.go. -/
def getClientIP (req : Request) : String :=
  if req.xForwardedFor ≠ "" then firstForwarded req.xForwardedFor
  else hostOfAddr req.remoteAddr

/-- validateLog from main.go: service, then level, then message must be
non-empty after TrimSpace; returns the name of the first offending field. -/
def validateLog (l : Log) : Option String :=
  if goTrimSpace l.service == "" then some "service"
  else if goTrimSpace l.level == "" then some "level"
  else if goTrimSpace l.message == "" then some "message"
  else none

/-- The timestamp defaulting of handleIngest: a zero timestamp becomes the
current time. -/
def defaultTimestamp (now : Time) (l : Log) : Log :=
  if l.timestamp == 0 then { l with timestamp := now } else l

/-- The validation loop of handleIngest: walk the batch in order, default
each timestamp, and stop at the first invalid entry with its field name and
index; on success return the prepared entries. -/
def prepareLogs (now : Time) (i : Nat) : List Log → Except (String × Nat) (List Log)
  | [] => .ok []
  | l :: ls =>
    let l1 := defaultTimestamp now l
    match validateLog l1 with
    | some field => .error (field, i)
    | none => (prepareLogs now (i + 1) ls).map (l1 :: ·)

/-- The batch decoded from the body by handleIngest: an array as is, a
single object wrapped as a one-element batch, or a decode failure. -/
def decodedLogs : Payload → Option (List Log)
  | .arr ls => some ls
  | .single l => some [l]
  | .invalid => none

/-- maxBodySize = 10 << 20 from main.go. -/
def maxBodySize : Nat := 10 * 1024 * 1024

/-- The outcome of handleIngest, by status: 405, 429, 400 (body read or
oversize), 400 (JSON), 400 (validation, carrying the offending field from
the response body and the batch index from the diagnostic), 500, 201. -/
inductive IngestResponse where
  | methodNotAllowed
  | rateLimited
  | badBody
  | invalidJSON
  | validationError (field : String) (index : Nat)
  | storageError
  | created
deriving DecidableEq, Repr

/-- The whole server state touched by the handlers: the database, the rate
limiter map, and the websocket hub. -/
structure ServerState where
  db : DBState := {}
  limiter : LimiterState
  hub : wsHub := {}

/-- handleIngest from main.go: method check, rate-limit gate, body size
guard, decode (array first, then single object), per-entry defaulting and
validation, then a batch insert for more than one entry or a single insert
for one entry, and finally the broadcast of the accepted entries. -/
def handleIngest (env : DBEnv) (st : ServerState) (now : Time) (req : Request) :
    IngestResponse × ServerState :=
  if req.method ≠ "POST" then (.methodNotAllowed, st)
  else
    let ip := getClientIP req
    let a := serverAllow st.limiter ip now
    let st1 := { st with limiter := a.2 }
    if !a.1 then (.rateLimited, st1)
    else if maxBodySize < req.bodySize then (.badBody, st1)
    else
      match decodedLogs req.payload with
      | none => (.invalidJSON, st1)
      | some rawLogs =>
        match prepareLogs now 0 rawLogs with
        | .error fi => (.validationError fi.1 fi.2, st1)
        | .ok logs =>
          match logs with
          | [] => (.created, { st1 with hub := broadcastLogs st1.hub logs })
          | [l] =>
            match InsertLog env st1.db now l with
            | .error _ => (.storageError, st1)
            | .ok db1 =>
              (.created, { st1 with db := db1, hub := broadcastLogs st1.hub logs })
          | _ =>
            match InsertBatch env st1.db now logs with
            | .error _ => (.storageError, st1)
            | .ok db1 =>
              (.created, { st1 with db := db1, hub := broadcastLogs st1.hub logs })

/-- A start or end query parameter as seen after time.Parse: absent,
malformed (time.Parse errors), or a valid instant. -/
inductive TimeParam where
  | absent
  | malformed (raw : String)
  | valid (t : Time)
deriving DecidableEq, Repr

/-- A query HTTP request, reduced to the parts handleQueryLogs reads. The
limit parameter is kept as its raw string ("" when absent). -/
structure QueryRequest where
  method : String := "GET"
  service : String := ""
  level : String := ""
  host : String := ""
  search : String := ""
  limitParam : String := ""
  startParam : TimeParam := .absent
  endParam : TimeParam := .absent
deriving DecidableEq, Repr

/-- The outcome of handleQueryLogs: 405, a 400 with its error code, or a 200
with the result list and whether the retention-window warning header was
attached. -/
inductive QueryResponse where
  | methodNotAllowed
  | badRequest (code : String)
  | results (logs : List Log) (warning : Bool)
deriving DecidableEq, Repr

/-- The value of one decimal digit. -/
def digitVal (c : Char) : Option Nat :=
  if '0' ≤ c ∧ c ≤ '9' then some (c.toNat - '0'.toNat) else none

/-- Accumulate a decimal digit string; any non-digit fails. -/
def parseDigits (acc : Nat) : List Char → Option Nat
  | [] => some acc
  | c :: cs =>
    match digitVal c with
    | none => none
    | some d => parseDigits (acc * 10 + d) cs

/-- strconv.Atoi reduced to the values possible here: an optional sign
followed by at least one digit; anything else is an error. -/
def goAtoi (s : String) : Option Int :=
  match s.toList with
  | [] => none
  | '-' :: cs =>
    match cs with
    | [] => none
    | _ => (parseDigits 0 cs).map (fun n => -(n : Int))
  | '+' :: cs =>
    match cs with
    | [] => none
    | _ => (parseDigits 0 cs).map (fun n => (n : Int))
  | cs => (parseDigits 0 cs).map (fun n => (n : Int))

/-- The outcome of time.Parse on a start or end parameter: absent bounds
stay absent, malformed dates are the invalid-date client error, valid dates
become the bound. -/
def parseTimeParam : TimeParam → Except String (Option Time)
  | .absent => .ok none
  | .malformed _ => .error "invalid_date"
  | .valid t => .ok (some t)

/-- The illogical-range check of handleQueryLogs: both bounds present and
start strictly after end. -/
def startAfterEnd (s e : Option Time) : Bool :=
  match s, e with
  | some a, some b => decide (b < a)
  | _, _ => false

/-- handleQueryLogs from main.go: method check, filter construction from the
query string, limit parsing (absent keeps 0; malformed or negative is a 400
with code invalid limit), date parsing, the start-after-end check, the
retention-window warning header, and the storage read. -/
def handleQueryLogs (st : DBState) (now : Time) (req : QueryRequest) : QueryResponse :=
  if req.method ≠ "GET" then .methodNotAllowed
  else
    let parsedLimit : Except String Int :=
      if req.limitParam ≠ "" then
        match goAtoi req.limitParam with
        | none => .error "invalid_limit"
        | some n => if n < 0 then .error "invalid_limit" else .ok n
      else .ok 0
    match parsedLimit with
    | .error c => .badRequest c
    | .ok lim =>
      match parseTimeParam req.startParam with
      | .error c => .badRequest c
      | .ok startT =>
        match parseTimeParam req.endParam with
        | .error c => .badRequest c
        | .ok endT =>
          if startAfterEnd startT endT then .badRequest "date_range_invalid"
          else
            let f : LogFilter :=
              { service := req.service, level := req.level, host := req.host,
                search := req.search, startTime := startT, endTime := endT,
                limit := lim }
            let cutoff := now - retentionPeriod
            let warning :=
              (match endT with | some t => decide (t < cutoff) | none => false) ||
              (!(match endT with | some t => decide (t < cutoff) | none => false) &&
               (match startT with | some t => decide (t < cutoff) | none => false))
            .results (QueryLogs st f) warning

/-! Helper lemmas (shared between claims). -/

theorem logOfRow_timestamp (r : Row) : (logOfRow r).timestamp = r.timestamp := rfl

theorem logOfRow_id (r : Row) : (logOfRow r).id = r.id := rfl

theorem selectedRows_pairwise (st : DBState) (f : LogFilter) :
    (selectedRows st f).Pairwise rowBefore := by
  have hs : (List.insertionSort rowBefore (st.rows.filter (matchesFilter f))).Pairwise
      rowBefore := List.sorted_insertionSort rowBefore _
  exact hs.sublist (List.take_sublist _ _)

theorem queryLogs_length_le (st : DBState) (f : LogFilter) :
    (QueryLogs st f).length ≤ (effectiveLimit f.limit).toNat := by
  unfold QueryLogs selectedRows
  rw [List.length_map]
  exact List.length_take_le _ _

/-! C3: query ordering. -/

/-- C3: for every filter and state, the rows QueryLogs returns are ordered by
timestamp descending, and among entries with equal timestamps the order
follows insertion/id order (ids are assigned in insertion order). -/
theorem queryLogs_timestamp_desc (st : DBState) (f : LogFilter) :
    (QueryLogs st f).Pairwise
      (fun a b => b.timestamp < a.timestamp ∨
        (a.timestamp = b.timestamp ∧ a.id ≤ b.id)) := by
  unfold QueryLogs
  rw [List.pairwise_map]
  exact (selectedRows_pairwise st f).imp (fun h => h)

/-! C7: retention delete. -/

/-- C7: one retention sweep removes exactly the stored entries whose
timestamp is strictly before now minus the 30-day retention window, leaves
every other entry (and the rest of the database state) untouched, returns
the count removed, and returns zero when nothing matches. -/
theorem retention_delete_exact (st : DBState) (now : Time) :
    (∀ r : Row, r ∈ (runCleanup st now).1.rows ↔
        r ∈ st.rows ∧ ¬ r.timestamp < now - retentionPeriod) ∧
    List.Sublist (runCleanup st now).1.rows st.rows ∧
    (runCleanup st now).1.nextId = st.nextId ∧
    (runCleanup st now).2 =
      (st.rows.filter (fun r => decide (r.timestamp < now - retentionPeriod))).length ∧
    ((∀ r ∈ st.rows, now - retentionPeriod ≤ r.timestamp) → (runCleanup st now).2 = 0) := by
  refine ⟨?_, ?_, rfl, rfl, ?_⟩
  · intro r
    simp [runCleanup, DeleteOldLogs, List.mem_filter]
  · exact List.filter_sublist _
  · intro h
    simp only [runCleanup, DeleteOldLogs, List.length_eq_zero]
    rw [List.filter_eq_nil_iff]
    intro r hr
    simpa using h r hr

/-- Concrete check of the retention sweep: with rows at timestamps 0 and
2592001 and the clock at 2592002, exactly the old row is removed and the
count is 1; on the surviving state a second sweep removes nothing. -/
theorem retention_delete_exact_witness :
    (({ id := 2, timestamp := 2592001, service := "a", level := "b", message := "c",
        metadata := none, host := "h", createdAt := 0 } : Row) ∈
      (runCleanup
        { rows := [{ id := 1, timestamp := 0, service := "a", level := "b", message := "c",
                     metadata := none, host := "h", createdAt := 0 },
                   { id := 2, timestamp := 2592001, service := "a", level := "b", message := "c",
                     metadata := none, host := "h", createdAt := 0 }] } 2592002).1.rows) ∧
    (runCleanup
        { rows := [{ id := 2, timestamp := 2592001, service := "a", level := "b", message := "c",
                     metadata := none, host := "h", createdAt := 0 }] } 2592002).2 = 0 := by
  constructor
  · refine ((retention_delete_exact
      { rows := [{ id := 1, timestamp := 0, service := "a", level := "b", message := "c",
                   metadata := none, host := "h", createdAt := 0 },
                 { id := 2, timestamp := 2592001, service := "a", level := "b", message := "c",
                   metadata := none, host := "h", createdAt := 0 }] } 2592002).1 _).mpr
      ⟨by simp, ?_⟩
    norm_num [retentionPeriod]
  · refine (retention_delete_exact
      { rows := [{ id := 2, timestamp := 2592001, service := "a", level := "b", message := "c",
                   metadata := none, host := "h", createdAt := 0 }] } 2592002).2.2.2.2 ?_
    intro r hr
    simp only [List.mem_singleton] at hr
    subst hr
    norm_num [retentionPeriod]

/-! C9: distinct values and the column allow-list. -/

/-- C9: getDistinctValues fails closed on any column outside the allow-list
service, level, host, with an error that does not depend on the database
state (no query is issued); on an allow-listed column it returns at most 100
distinct values of that column in strictly ascending order. -/
theorem distinct_values_allowlist :
    (∀ st st2 : DBState, ∀ column : String, column ∉ allowedFilterColumns →
      (∃ e, getDistinctValues st column = .error e) ∧
      getDistinctValues st column = getDistinctValues st2 column) ∧
    (∀ (st : DBState) (column : String), column ∈ allowedFilterColumns →
      ∃ vs, getDistinctValues st column = .ok vs ∧
        vs.length ≤ 100 ∧
        vs.Pairwise (fun a b : String => a < b) ∧
        ∀ v ∈ vs, v ∈ st.rows.map (columnValue column)) := by
  constructor
  · intro st st2 column h
    constructor
    · exact ⟨"invalid column name: " ++ column, by simp [getDistinctValues, h]⟩
    · simp [getDistinctValues, h]
  · intro st column h
    refine ⟨(List.insertionSort (fun a b : String => a ≤ b)
        (st.rows.map (columnValue column))).dedup.take 100,
      by simp [getDistinctValues, h], ?_, ?_, ?_⟩
    · exact List.length_take_le _ _
    · have hsorted : (List.insertionSort (fun a b : String => a ≤ b)
          (st.rows.map (columnValue column))).Pairwise (fun a b : String => a ≤ b) :=
        List.sorted_insertionSort _ _
      have hle : ((List.insertionSort (fun a b : String => a ≤ b)
          (st.rows.map (columnValue column))).dedup).Pairwise (fun a b : String => a ≤ b) :=
        hsorted.sublist (List.dedup_sublist _)
      have hne : ((List.insertionSort (fun a b : String => a ≤ b)
          (st.rows.map (columnValue column))).dedup).Pairwise (fun a b : String => a ≠ b) :=
        List.nodup_dedup _
      have hlt := (hle.and hne).imp
        (fun h => lt_of_le_of_ne h.1 h.2)
      exact hlt.sublist (List.take_sublist _ _)
    · intro v hv
      have h1 : v ∈ (List.insertionSort (fun a b : String => a ≤ b)
          (st.rows.map (columnValue column))).dedup :=
        List.take_subset _ _ hv
      have h2 := List.dedup_subset _ h1
      exact (List.perm_insertionSort _ _).subset h2

/-- Concrete check of the distinct-value read: a state with duplicated and
unsorted services yields the sorted distinct list, and a disallowed column
is an error regardless of state. -/
theorem distinct_values_allowlist_witness :
    (∃ vs, getDistinctValues
        { rows := [{ id := 1, timestamp := 0, service := "web", level := "INFO", message := "m",
                     metadata := none, host := "h", createdAt := 0 },
                   { id := 2, timestamp := 0, service := "api", level := "WARN", message := "m",
                     metadata := none, host := "h", createdAt := 0 },
                   { id := 3, timestamp := 0, service := "web", level := "INFO", message := "m",
                     metadata := none, host := "h", createdAt := 0 }] } "service" = .ok vs ∧
      vs.length ≤ 100 ∧ vs.Pairwise (fun a b : String => a < b) ∧ True) ∧
    (∃ e, getDistinctValues ({} : DBState) "metadata; DROP TABLE logs" = .error e) := by
  constructor
  · obtain ⟨vs, h1, h2, h3, _⟩ := distinct_values_allowlist.2
      { rows := [{ id := 1, timestamp := 0, service := "web", level := "INFO", message := "m",
                   metadata := none, host := "h", createdAt := 0 },
                 { id := 2, timestamp := 0, service := "api", level := "WARN", message := "m",
                   metadata := none, host := "h", createdAt := 0 },
                 { id := 3, timestamp := 0, service := "web", level := "INFO", message := "m",
                   metadata := none, host := "h", createdAt := 0 }] }
      "service" (by decide)
    exact ⟨vs, h1, h2, h3, trivial⟩
  · exact (distinct_values_allowlist.1 {} {} "metadata; DROP TABLE logs" (by decide)).1

/-! C10: undecodable metadata blobs are tolerated on read. -/

/-- C10: a stored row whose persisted metadata blob is not valid JSON is
still returned by QueryLogs, with no metadata (the deserialization error is
silently discarded); the read does not fail. The result-fits-in-limit bound
keeps the row from being cut by the LIMIT clause. -/
theorem queryLogs_bad_metadata (st : DBState) (f : LogFilter) (r : Row) (raw : String)
    (hr : r ∈ st.rows)
    (hmatch : matchesFilter f r = true)
    (hblob : r.metadata = some (.garbage raw))
    (hfit : (st.rows.filter (matchesFilter f)).length ≤ (effectiveLimit f.limit).toNat) :
    ∃ l ∈ QueryLogs st f,
      l.id = r.id ∧ l.timestamp = r.timestamp ∧ l.service = r.service ∧
      l.level = r.level ∧ l.message = r.message ∧ l.host = r.host ∧
      l.metadata = none := by
  have hmem : r ∈ st.rows.filter (matchesFilter f) := List.mem_filter.mpr ⟨hr, hmatch⟩
  have hperm := List.perm_insertionSort rowBefore (st.rows.filter (matchesFilter f))
  have hmem2 : r ∈ List.insertionSort rowBefore (st.rows.filter (matchesFilter f)) :=
    hperm.mem_iff.mpr hmem
  have hlen : (List.insertionSort rowBefore (st.rows.filter (matchesFilter f))).length ≤
      (effectiveLimit f.limit).toNat := by
    rw [hperm.length_eq]; exact hfit
  have hsel : r ∈ selectedRows st f := by
    unfold selectedRows
    rw [List.take_of_length_le hlen]
    exact hmem2
  refine ⟨logOfRow r, List.mem_map_of_mem logOfRow hsel, rfl, rfl, rfl, rfl, rfl, rfl, ?_⟩
  simp [logOfRow, hblob, jsonUnmarshalBlob]

/-- Concrete check: a row whose metadata blob is garbage is returned by an
unfiltered query with nil metadata. -/
theorem queryLogs_bad_metadata_witness :
    ∃ l ∈ QueryLogs
      { rows := [{ id := 1, timestamp := 7, service := "api", level := "ERROR", message := "m",
                   metadata := some (.garbage "not json"), host := "h1", createdAt := 9 }] }
      {},
      l.id = 1 ∧ l.metadata = none := by
  obtain ⟨l, hl, hid, _, _, _, _, _, hmeta⟩ := queryLogs_bad_metadata
    { rows := [{ id := 1, timestamp := 7, service := "api", level := "ERROR", message := "m",
                 metadata := some (.garbage "not json"), host := "h1", createdAt := 9 }] }
    {}
    { id := 1, timestamp := 7, service := "api", level := "ERROR", message := "m",
      metadata := some (.garbage "not json"), host := "h1", createdAt := 9 }
    "not json" (by simp) (by decide) rfl (by decide)
  exact ⟨l, hl, hid, hmeta⟩

/-! C6: the filter-option cache. -/

/-- C6: while now is before the cached snapshot's expiry, GetFilterOptions
returns exactly the cached snapshot with the state untouched and zero
storage-engine queries; on expiry (or first call, when the expiry is still
the zero value) it recomputes the three distinct-value lists from the
storage engine (three queries), sets the new expiry to now + 30 seconds, and
replaces the cache with exactly the value it returns. -/
theorem filter_options_cache (st : DBState) (now : Time) :
    (now < st.cacheExpires →
      GetFilterOptions st now = .ok (st.cacheOptions, st, 0)) ∧
    (st.cacheExpires ≤ now → ∃ opts : FilterOptions,
      GetFilterOptions st now =
        .ok (opts, { st with cacheOptions := opts,
                             cacheExpires := now + filterCacheTTL }, 3) ∧
      getDistinctValues st "service" = .ok opts.services ∧
      getDistinctValues st "level" = .ok opts.levels ∧
      getDistinctValues st "host" = .ok opts.hosts) := by
  constructor
  · intro h
    simp [GetFilterOptions, h]
  · intro h
    have hn : ¬ now < st.cacheExpires := not_lt.mpr h
    have hs : getDistinctValues st "service" =
        .ok ((List.insertionSort (fun a b : String => a ≤ b)
          (st.rows.map (columnValue "service"))).dedup.take 100) := by
      simp [getDistinctValues, allowedFilterColumns]
    have hl : getDistinctValues st "level" =
        .ok ((List.insertionSort (fun a b : String => a ≤ b)
          (st.rows.map (columnValue "level"))).dedup.take 100) := by
      simp [getDistinctValues, allowedFilterColumns]
    have hh : getDistinctValues st "host" =
        .ok ((List.insertionSort (fun a b : String => a ≤ b)
          (st.rows.map (columnValue "host"))).dedup.take 100) := by
      simp [getDistinctValues, allowedFilterColumns]
    refine ⟨⟨(List.insertionSort (fun a b : String => a ≤ b)
        (st.rows.map (columnValue "service"))).dedup.take 100,
      (List.insertionSort (fun a b : String => a ≤ b)
        (st.rows.map (columnValue "level"))).dedup.take 100,
      (List.insertionSort (fun a b : String => a ≤ b)
        (st.rows.map (columnValue "host"))).dedup.take 100⟩, ?_, ?_, ?_, ?_⟩
    · simp only [GetFilterOptions, hn, if_false, hs, hl, hh]
    · rw [hs]
    · rw [hl]
    · rw [hh]

/-- Concrete check of the cache: before expiry the snapshot is served as is
with zero queries; at expiry a refresh returns the recomputed snapshot with
three queries and expiry moved to now + 30. -/
theorem filter_options_cache_witness :
    GetFilterOptions
      { rows := [], cacheOptions := { services := ["cached"] }, cacheExpires := 10 } 5 =
      .ok ({ services := ["cached"] },
           { rows := [], cacheOptions := { services := ["cached"] }, cacheExpires := 10 }, 0) ∧
    ∃ opts : FilterOptions,
      GetFilterOptions
        { rows := [], cacheOptions := { services := ["cached"] }, cacheExpires := 10 } 50 =
        .ok (opts,
             { rows := [], cacheOptions := opts, cacheExpires := 50 + filterCacheTTL }, 3) := by
  constructor
  · exact (filter_options_cache
      { rows := [], cacheOptions := { services := ["cached"] }, cacheExpires := 10 } 5).1
      (by norm_num)
  · obtain ⟨opts, h1, -, -, -⟩ := (filter_options_cache
      { rows := [], cacheOptions := { services := ["cached"] }, cacheExpires := 10 } 50).2
      (by norm_num)
    exact ⟨opts, h1⟩

/-! C8: the result-count limit. -/

/-- C8: for a well-formed query request, a supplied limit of N greater than
0 returns at most N rows; an omitted limit or a supplied limit of 0 falls
through to the default limit of 1000; a negative explicit limit is rejected
at the handler boundary with the invalid-limit query-parameter error (HTTP
400) instead of being clamped or passed to the storage engine. -/
theorem query_limit_bounds (st : DBState) (now : Time) (req : QueryRequest)
    (ts te : Option Time)
    (hm : req.method = "GET")
    (hstart : parseTimeParam req.startParam = .ok ts)
    (hend : parseTimeParam req.endParam = .ok te)
    (hrange : startAfterEnd ts te = false) :
    (∀ n : Int, goAtoi req.limitParam = some n → 0 < n →
      ∃ logs warning, handleQueryLogs st now req = .results logs warning ∧
        logs.length ≤ n.toNat) ∧
    ((req.limitParam = "" ∨ goAtoi req.limitParam = some 0) →
      ∃ logs warning, handleQueryLogs st now req = .results logs warning ∧
        logs.length ≤ 1000) ∧
    effectiveLimit 0 = 1000 ∧
    (∀ n : Int, goAtoi req.limitParam = some n → n < 0 →
      handleQueryLogs st now req = .badRequest "invalid_limit") := by
  refine ⟨?_, ?_, rfl, ?_⟩
  · intro n hn h0
    have hne : req.limitParam ≠ "" := by
      intro e
      rw [e] at hn
      simp [goAtoi] at hn
    have hnotneg : ¬ n < 0 := not_lt.mpr h0.le
    simp only [handleQueryLogs, hm, ne_eq, not_true_eq_false, if_false, hne,
      not_false_eq_true, if_true, hn, hnotneg, hstart, hend, hrange,
      Bool.false_eq_true, reduceIte]
    refine ⟨_, _, rfl, ?_⟩
    have hn0 : ¬ n ≤ 0 := not_le.mpr h0
    exact (queryLogs_length_le st _).trans (le_of_eq (by simp [effectiveLimit, hn0]))
  · intro hcase
    have hlim : (if req.limitParam ≠ "" then
        match goAtoi req.limitParam with
        | none => Except.error "invalid_limit"
        | some n => if n < 0 then Except.error "invalid_limit" else Except.ok n
      else Except.ok 0) = Except.ok (0 : Int) := by
      rcases hcase with he | h0
      · simp [he]
      · have hne : req.limitParam ≠ "" := by
          intro e
          rw [e] at h0
          simp [goAtoi] at h0
        simp [hne, h0]
    simp only [handleQueryLogs, hm, ne_eq, not_true_eq_false, if_false, hlim,
      hstart, hend, hrange, Bool.false_eq_true, reduceIte]
    refine ⟨_, _, rfl, ?_⟩
    exact (queryLogs_length_le st _).trans (le_of_eq (by simp [effectiveLimit]))
  · intro n hn hneg
    have hne : req.limitParam ≠ "" := by
      intro e
      rw [e] at hn
      simp [goAtoi] at hn
    simp only [handleQueryLogs, hm, ne_eq, not_true_eq_false, if_false, hne,
      not_false_eq_true, if_true, hn, hneg, reduceIte]

/-- Concrete check of the limit behaviour: on a one-row state, limit "2"
succeeds with at most two rows, an omitted limit succeeds with at most 1000
rows, and limit "-5" is the invalid-limit client error. -/
theorem query_limit_bounds_witness :
    (∃ logs warning, handleQueryLogs
        { rows := [{ id := 1, timestamp := 1, service := "api", level := "INFO", message := "m",
                     metadata := none, host := "h", createdAt := 0 }] } 0
        { limitParam := "2" } = .results logs warning ∧ logs.length ≤ 2) ∧
    (∃ logs warning, handleQueryLogs
        { rows := [{ id := 1, timestamp := 1, service := "api", level := "INFO", message := "m",
                     metadata := none, host := "h", createdAt := 0 }] } 0
        {} = .results logs warning ∧ logs.length ≤ 1000) ∧
    handleQueryLogs
        { rows := [{ id := 1, timestamp := 1, service := "api", level := "INFO", message := "m",
                     metadata := none, host := "h", createdAt := 0 }] } 0
        { limitParam := "-5" } = .badRequest "invalid_limit" := by
  refine ⟨?_, ?_, ?_⟩
  · obtain ⟨logs, w, h1, h2⟩ := (query_limit_bounds
      { rows := [{ id := 1, timestamp := 1, service := "api", level := "INFO", message := "m",
                   metadata := none, host := "h", createdAt := 0 }] } 0
      { limitParam := "2" } none none rfl rfl rfl rfl).1 2 (by decide) (by norm_num)
    exact ⟨logs, w, h1, by simpa using h2⟩
  · exact (query_limit_bounds
      { rows := [{ id := 1, timestamp := 1, service := "api", level := "INFO", message := "m",
                   metadata := none, host := "h", createdAt := 0 }] } 0
      {} none none rfl rfl rfl rfl).2.1 (Or.inl rfl)
  · exact (query_limit_bounds
      { rows := [{ id := 1, timestamp := 1, service := "api", level := "INFO", message := "m",
                   metadata := none, host := "h", createdAt := 0 }] } 0
      { limitParam := "-5" } none none rfl rfl rfl rfl).2.2.2 (-5) (by decide) (by norm_num)

/-! C5: broadcast delivery and slow-consumer eviction. -/

theorem deliverOne_id {msg : String} {a c : wsClient} (h : deliverOne msg a = some c) :
    c.id = a.id := by
  unfold deliverOne at h
  by_cases hc : a.queue.length < a.cap
  · rw [if_pos hc] at h
    injection h with h1
    rw [← h1]
  · rw [if_neg hc] at h
    exact Option.noConfusion h

/-- C5: a broadcast serializes the batch once (the payload msg is a function
of the entries and their order); every subscriber registered at broadcast
time whose bounded queue has room receives exactly that payload appended to
its queue; every registered subscriber whose queue is full is removed from
the live set instead of blocking; and an identity not registered at
broadcast time receives nothing (no client with that identity exists
afterwards). The id-distinctness hypothesis reflects that clients are
distinct map keys in the source. -/
theorem hub_broadcast_delivery (h : wsHub) (logs : List Log) (msg : String)
    (hids : (h.clients.map wsClient.id).Nodup)
    (henc : encodeLogs logs = some msg) :
    (∀ c ∈ h.clients, c.queue.length < c.cap →
      { c with queue := c.queue ++ [msg] } ∈ (broadcastLogs h logs).clients) ∧
    (∀ c ∈ h.clients, c.cap ≤ c.queue.length →
      ∀ c2 ∈ (broadcastLogs h logs).clients, c2.id ≠ c.id) ∧
    (∀ idv : Nat, (∀ c ∈ h.clients, c.id ≠ idv) →
      ∀ c2 ∈ (broadcastLogs h logs).clients, c2.id ≠ idv) := by
  have hb : broadcastLogs h logs = hubBroadcast h msg := by
    simp [broadcastLogs, henc]
  rw [hb]
  refine ⟨?_, ?_, ?_⟩
  · intro c hc hroom
    simp only [hubBroadcast, List.mem_filterMap]
    exact ⟨c, hc, by simp [deliverOne, hroom]⟩
  · intro c hc hfull c2 hc2
    simp only [hubBroadcast, List.mem_filterMap] at hc2
    obtain ⟨a, ha, hda⟩ := hc2
    intro heq
    have haid : a.id = c.id := (deliverOne_id hda) ▸ heq
    have hac : a = c := List.inj_on_of_nodup_map hids ha hc haid
    rw [hac] at hda
    rw [deliverOne, if_neg (not_lt.mpr hfull)] at hda
    exact Option.noConfusion hda
  · intro idv hno c2 hc2
    simp only [hubBroadcast, List.mem_filterMap] at hc2
    obtain ⟨a, ha, hda⟩ := hc2
    rw [deliverOne_id hda]
    exact hno a ha

/-- Concrete check of a broadcast: with one roomy subscriber (id 1) and one
full subscriber (id 2), the roomy one receives the serialized payload, the
full one is evicted, and the never-registered id 3 receives nothing. -/
theorem hub_broadcast_delivery_witness :
    (({ id := 1, cap := 2, queue := ["[api|ERROR|db timeout|h1]"] } : wsClient) ∈
      (broadcastLogs { clients := [{ id := 1, cap := 2, queue := [] },
                                   { id := 2, cap := 1, queue := ["x"] }] }
        [{ service := "api", level := "ERROR", message := "db timeout",
           host := "h1" }]).clients) ∧
    (∀ c2 ∈ (broadcastLogs { clients := [{ id := 1, cap := 2, queue := [] },
                                         { id := 2, cap := 1, queue := ["x"] }] }
        [{ service := "api", level := "ERROR", message := "db timeout",
           host := "h1" }]).clients, c2.id ≠ 2) ∧
    (∀ c2 ∈ (broadcastLogs { clients := [{ id := 1, cap := 2, queue := [] },
                                         { id := 2, cap := 1, queue := ["x"] }] }
        [{ service := "api", level := "ERROR", message := "db timeout",
           host := "h1" }]).clients, c2.id ≠ 3) := by
  refine ⟨?_, ?_, ?_⟩
  · exact (hub_broadcast_delivery
      { clients := [{ id := 1, cap := 2, queue := [] },
                    { id := 2, cap := 1, queue := ["x"] }] }
      [{ service := "api", level := "ERROR", message := "db timeout", host := "h1" }]
      "[api|ERROR|db timeout|h1]" (by decide) rfl).1
      { id := 1, cap := 2, queue := [] } (by simp) (by decide)
  · exact (hub_broadcast_delivery
      { clients := [{ id := 1, cap := 2, queue := [] },
                    { id := 2, cap := 1, queue := ["x"] }] }
      [{ service := "api", level := "ERROR", message := "db timeout", host := "h1" }]
      "[api|ERROR|db timeout|h1]" (by decide) rfl).2.1
      { id := 2, cap := 1, queue := ["x"] } (by simp) (by decide)
  · exact (hub_broadcast_delivery
      { clients := [{ id := 1, cap := 2, queue := [] },
                    { id := 2, cap := 1, queue := ["x"] }] }
      [{ service := "api", level := "ERROR", message := "db timeout", host := "h1" }]
      "[api|ERROR|db timeout|h1]" (by decide) rfl).2.2 3 (by decide)

/-! C4: rate limiting. -/

theorem handleIngest_limiter (env : DBEnv) (st : ServerState) (now : Time) (req : Request)
    (hm : req.method = "POST") :
    (handleIngest env st now req).2.limiter =
      (serverAllow st.limiter (getClientIP req) now).2 := by
  simp only [handleIngest, hm, ne_eq, not_true_eq_false, if_false, reduceIte]
  split
  · rfl
  · split
    · rfl
    · split
      · rfl
      · split
        · rfl
        · split
          · rfl
          · split
            · rfl
            · rfl
          · split
            · rfl
            · rfl

theorem handleIngest_allowed_ne_rateLimited (env : DBEnv) (st : ServerState) (now : Time)
    (req : Request) (hm : req.method = "POST")
    (hallow : (serverAllow st.limiter (getClientIP req) now).1 = true) :
    (handleIngest env st now req).1 ≠ .rateLimited := by
  simp only [handleIngest, hm, ne_eq, not_true_eq_false, if_false, hallow,
    Bool.not_true, Bool.false_eq_true, reduceIte]
  repeat' split
  all_goals simp

theorem serverAllow_fresh (l : LimiterState) (ip : String) (now : Time)
    (hrate : l.rate = 1) (hburst : l.burst = 1)
    (hnew : List.lookup ip l.buckets = none) :
    serverAllow l ip now =
      (true, { l with buckets := (ip, ⟨0, now⟩) :: l.buckets }) := by
  have hmax : (0 : ℚ) ≤ max (now - 0) 0 := le_max_right _ _
  have htk : min (((1 : Nat) : ℚ) + max (now - 0) 0 * 1) ((1 : Nat) : ℚ) = 1 := by
    rw [mul_one]
    rw [min_eq_right (by push_cast; linarith)]
    norm_num
  have hcond : (1 : ℚ) ≤ min (((1 : Nat) : ℚ) + max (now - 0) 0 * 1) ((1 : Nat) : ℚ) := by
    rw [htk]
  simp only [serverAllow, getLimiter, hnew, limiterAllow, hrate, hburst]
  rw [if_pos ⟨hcond, le_refl 1⟩]
  simp only [setBucket, beq_self_eq_true, if_true]
  rw [htk]
  norm_num

theorem serverAllow_spent (l : LimiterState) (ip : String) (now : Time)
    (hrate : l.rate = 1) (hburst : l.burst = 1)
    (hfound : List.lookup ip l.buckets = some ⟨0, now⟩) :
    (serverAllow l ip now).1 = false := by
  have htk : min ((0 : ℚ) + max (now - now) 0 * 1) ((1 : Nat) : ℚ) = 0 := by
    rw [sub_self, max_self, mul_one, add_zero]
    rw [min_eq_left (by norm_num)]
  simp only [serverAllow, getLimiter, hfound, limiterAllow, hrate, hburst]
  rw [if_neg]
  intro hcl
  rw [htk] at hcl
  exact absurd hcl.1 (by norm_num)

/-- C4: a rate-limited ingestion request receives only the 429 outcome with
the database and the hub untouched (the body is never decoded and nothing
is validated, persisted, or broadcast, whatever the payload and the storage
environment are); and the first request for a new identity lazily creates a
bucket at full burst capacity, so with rate 1 and burst 1 the first request
from a fresh identity passes the limiter while an immediate second request
from the same identity is denied with 429. -/
theorem ingest_rate_limit :
    (∀ (env : DBEnv) (st : ServerState) (now : Time) (req : Request),
      req.method = "POST" →
      (serverAllow st.limiter (getClientIP req) now).1 = false →
      (handleIngest env st now req).1 = .rateLimited ∧
      (handleIngest env st now req).2.db = st.db ∧
      (handleIngest env st now req).2.hub = st.hub) ∧
    (∀ (env env2 : DBEnv) (st : ServerState) (now : Time) (req : Request),
      req.method = "POST" →
      st.limiter.rate = 1 →
      st.limiter.burst = 1 →
      List.lookup (getClientIP req) st.limiter.buckets = none →
      (handleIngest env st now req).1 ≠ .rateLimited ∧
      (handleIngest env2 (handleIngest env st now req).2 now req).1 = .rateLimited) := by
  have partA : ∀ (env : DBEnv) (st : ServerState) (now : Time) (req : Request),
      req.method = "POST" →
      (serverAllow st.limiter (getClientIP req) now).1 = false →
      (handleIngest env st now req).1 = .rateLimited ∧
      (handleIngest env st now req).2.db = st.db ∧
      (handleIngest env st now req).2.hub = st.hub := by
    intro env st now req hm hdeny
    simp only [handleIngest, hm, ne_eq, not_true_eq_false, if_false, hdeny,
      Bool.not_false, reduceIte]
    refine ⟨?_, ?_, ?_⟩ <;> trivial
  refine ⟨partA, ?_⟩
  intro env env2 st now req hm hrate hburst hnew
  have hfresh := serverAllow_fresh st.limiter (getClientIP req) now hrate hburst hnew
  have hallow : (serverAllow st.limiter (getClientIP req) now).1 = true := by
    rw [hfresh]
  refine ⟨handleIngest_allowed_ne_rateLimited env st now req hm hallow, ?_⟩
  have hlim : (handleIngest env st now req).2.limiter =
      { st.limiter with buckets := (getClientIP req, ⟨0, now⟩) :: st.limiter.buckets } := by
    rw [handleIngest_limiter env st now req hm, hfresh]
  have hdeny2 : (serverAllow (handleIngest env st now req).2.limiter
      (getClientIP req) now).1 = false := by
    rw [hlim]
    exact serverAllow_spent _ (getClientIP req) now hrate hburst (by simp [List.lookup])
  exact (partA env2 (handleIngest env st now req).2 now req hm hdeny2).1

/-- Concrete check of the rate limiter: with rate 1 and burst 1 and a fresh
identity, the first request is created (201) and the immediate second
request is denied with 429 leaving the database and hub of the second call
untouched. -/
theorem ingest_rate_limit_witness :
    (handleIngest {} { limiter := { rate := 1, burst := 1 } } 0
      { payload := .arr [] }).1 ≠ .rateLimited ∧
    (handleIngest {} (handleIngest {} { limiter := { rate := 1, burst := 1 } } 0
      { payload := .arr [] }).2 0 { payload := .arr [] }).1 = .rateLimited := by
  exact (ingest_rate_limit.2 {} {} { limiter := { rate := 1, burst := 1 } } 0
    { payload := .arr [] } rfl rfl rfl rfl)

/-! C2: validation order and the first violation. -/

theorem validateLog_defaultTimestamp (now : Time) (l : Log) :
    validateLog (defaultTimestamp now l) = validateLog l := by
  unfold defaultTimestamp
  split <;> rfl

theorem validateLog_none_of_nonblank {l : Log}
    (h : (goTrimSpace l.service) ≠ "" ∧ (goTrimSpace l.level) ≠ "" ∧ (goTrimSpace l.message) ≠ "") :
    validateLog l = none := by
  unfold validateLog
  obtain ⟨h1, h2, h3⟩ := h
  simp [h1, h2, h3]

theorem validateLog_some_of_blank {l : Log}
    (h : (goTrimSpace l.service) = "" ∨ (goTrimSpace l.level) = "" ∨ (goTrimSpace l.message) = "") :
    validateLog l = some
      (if (goTrimSpace l.service) = "" then "service"
       else if (goTrimSpace l.level) = "" then "level" else "message") := by
  unfold validateLog
  by_cases h1 : (goTrimSpace l.service) = ""
  · simp [h1]
  · by_cases h2 : (goTrimSpace l.level) = ""
    · simp [h1, h2]
    · have h3 : (goTrimSpace l.message) = "" := by tauto
      simp [h1, h2, h3]

theorem prepareLogs_error (now : Time) (k : Nat) (ls : List Log) (i : Nat) (fld : String)
    (hi : i < ls.length)
    (hok : ∀ j (hj : j < i), validateLog (ls.get ⟨j, hj.trans hi⟩) = none)
    (hbad : validateLog (ls.get ⟨i, hi⟩) = some fld) :
    prepareLogs now k ls = .error (fld, k + i) := by
  induction ls generalizing i k with
  | nil => exact absurd hi (Nat.not_lt_zero i)
  | cons a t ih =>
    cases i with
    | zero =>
      simp only [List.get] at hbad
      simp only [prepareLogs, validateLog_defaultTimestamp, hbad, Nat.add_zero]
    | succ i0 =>
      have ha : validateLog a = none := hok 0 (Nat.succ_pos i0)
      have hi0 : i0 < t.length := Nat.succ_lt_succ_iff.mp hi
      have hok0 : ∀ j (hj : j < i0), validateLog (t.get ⟨j, hj.trans hi0⟩) = none := by
        intro j hj
        exact hok (j + 1) (Nat.succ_lt_succ hj)
      have hbad0 : validateLog (t.get ⟨i0, hi0⟩) = some fld := hbad
      have hrec := ih (k + 1) i0 hi0 hok0 hbad0
      simp only [prepareLogs, validateLog_defaultTimestamp, ha, hrec]
      rw [show k + 1 + i0 = k + (i0 + 1) from by omega]
      rfl

theorem prepareLogs_ok (now : Time) (i : Nat) (ls : List Log)
    (h : ∀ l ∈ ls, validateLog l = none) :
    prepareLogs now i ls = .ok (ls.map (defaultTimestamp now)) := by
  induction ls generalizing i with
  | nil => rfl
  | cons a t ih =>
    have ha : validateLog a = none := h a (List.mem_cons_self a t)
    have ht := ih (i + 1) (fun l hl => h l (List.mem_cons_of_mem a hl))
    simp only [prepareLogs, validateLog_defaultTimestamp, ha, ht, List.map_cons]
    rfl

/-- C2: when the decoded batch contains an entry with a blank (empty after
trimming) required field, validation scans entries in batch order, checks
service, then level, then message, and the first violation fails the whole
request with a validation error naming that field and the entry's index in
the batch; nothing is persisted and nothing is broadcast. -/
theorem ingest_validation_first_violation (env : DBEnv) (st : ServerState) (now : Time)
    (req : Request) (logs : List Log) (i : Nat)
    (hm : req.method = "POST")
    (hallow : (serverAllow st.limiter (getClientIP req) now).1 = true)
    (hsize : req.bodySize ≤ maxBodySize)
    (hdec : decodedLogs req.payload = some logs)
    (hi : i < logs.length)
    (hok : ∀ j (hj : j < i),
      (goTrimSpace (logs.get ⟨j, hj.trans hi⟩).service) ≠ "" ∧
      (goTrimSpace (logs.get ⟨j, hj.trans hi⟩).level) ≠ "" ∧
      (goTrimSpace (logs.get ⟨j, hj.trans hi⟩).message) ≠ "")
    (hbad : (goTrimSpace (logs.get ⟨i, hi⟩).service) = "" ∨
      (goTrimSpace (logs.get ⟨i, hi⟩).level) = "" ∨ (goTrimSpace (logs.get ⟨i, hi⟩).message) = "") :
    (handleIngest env st now req).1 =
      .validationError
        (if (goTrimSpace (logs.get ⟨i, hi⟩).service) = "" then "service"
         else if (goTrimSpace (logs.get ⟨i, hi⟩).level) = "" then "level" else "message") i ∧
    (handleIngest env st now req).2.db = st.db ∧
    (handleIngest env st now req).2.hub = st.hub := by
  have hprep : prepareLogs now 0 logs =
      .error ((if (goTrimSpace (logs.get ⟨i, hi⟩).service) = "" then "service"
        else if (goTrimSpace (logs.get ⟨i, hi⟩).level) = "" then "level" else "message"), 0 + i) :=
    prepareLogs_error now 0 logs i _ hi
      (fun j hj => validateLog_none_of_nonblank (hok j hj))
      (validateLog_some_of_blank hbad)
  rw [Nat.zero_add] at hprep
  have hnsize : ¬ maxBodySize < req.bodySize := not_lt.mpr hsize
  simp only [handleIngest, hm, ne_eq, not_true_eq_false, if_false, hallow,
    Bool.not_true, Bool.false_eq_true, hnsize, hdec, hprep, reduceIte]
  refine ⟨?_, ?_, ?_⟩ <;> trivial

/-- Concrete check of validation: in a two-entry batch whose second entry
has a whitespace-only level, the request fails with the validation error
naming level and index 1, and the database stays empty. -/
theorem ingest_validation_first_violation_witness :
    (handleIngest {} { limiter := { rate := 1, burst := 1 } } 3
      { payload := .arr [
          { service := "api", level := "ERROR", message := "db timeout", host := "h1" },
          { service := "web", level := "  ", message := "ok" }] }).1 =
      .validationError "level" 1 ∧
    (handleIngest {} { limiter := { rate := 1, burst := 1 } } 3
      { payload := .arr [
          { service := "api", level := "ERROR", message := "db timeout", host := "h1" },
          { service := "web", level := "  ", message := "ok" }] }).2.db = {} := by
  have T := ingest_validation_first_violation {} { limiter := { rate := 1, burst := 1 } } 3
    { payload := .arr [
        { service := "api", level := "ERROR", message := "db timeout", host := "h1" },
        { service := "web", level := "  ", message := "ok" }] }
    [{ service := "api", level := "ERROR", message := "db timeout", host := "h1" },
     { service := "web", level := "  ", message := "ok" }] 1
    rfl (by rw [serverAllow_fresh] <;> rfl) (by decide) rfl (by decide)
    (by intro j hj
        interval_cases j
        exact of_decide_eq_true rfl)
    (by decide)
  refine ⟨?_, T.2.1⟩
  have h1 := T.1
  simpa using h1

/-! C1: batch-insert atomicity and metadata-marshal tolerance. -/

theorem insertLoop_ok_of_noFail (env : DBEnv) (now : Time) (nid : Int) (i : Nat)
    (ls : List Log) (h : ∀ j, j < ls.length → env.execFail (i + j) = false) :
    insertLoop env now nid i ls = .ok (mkRows nid now ls) := by
  induction ls generalizing nid i with
  | nil => rfl
  | cons a t ih =>
    have h0 : env.execFail i = false := by simpa using h 0 (Nat.succ_pos _)
    have ht : ∀ j, j < t.length → env.execFail (i + 1 + j) = false := by
      intro j hj
      have hx := h (j + 1) (Nat.succ_lt_succ hj)
      rwa [show i + (j + 1) = i + 1 + j from by omega] at hx
    simp only [insertLoop, h0, Bool.false_eq_true, if_false, ih (nid + 1) (i + 1) ht]
    rfl

theorem insertLoop_error_of_fail (env : DBEnv) (now : Time) (nid : Int) (i : Nat)
    (ls : List Log) (h : ∃ j, j < ls.length ∧ env.execFail (i + j) = true) :
    insertLoop env now nid i ls = .error () := by
  induction ls generalizing nid i with
  | nil =>
    obtain ⟨j, hj, -⟩ := h
    exact absurd hj (Nat.not_lt_zero j)
  | cons a t ih =>
    by_cases h0 : env.execFail i = true
    · simp only [insertLoop, h0, if_true]
    · obtain ⟨j, hj, hf⟩ := h
      have hj0 : j ≠ 0 := by
        intro e
        subst e
        rw [Nat.add_zero] at hf
        exact h0 hf
      obtain ⟨j0, rfl⟩ := Nat.exists_eq_succ_of_ne_zero hj0
      have ht : ∃ j, j < t.length ∧ env.execFail (i + 1 + j) = true :=
        ⟨j0, Nat.succ_lt_succ_iff.mp hj,
         by rwa [show i + 1 + j0 = i + (j0 + 1) from by omega]⟩
      simp only [insertLoop, h0, Bool.false_eq_true, if_false, ih (nid + 1) (i + 1) ht]
      rfl

theorem InsertBatch_ok (env : DBEnv) (st : DBState) (now : Time) (logs : List Log)
    (h : batchFails env logs.length = false) :
    InsertBatch env st now logs =
      .ok { st with rows := st.rows ++ mkRows st.nextId now logs,
                    nextId := st.nextId + (logs.length : Int) } := by
  simp only [batchFails, Bool.or_eq_false_iff, List.any_eq_false] at h
  obtain ⟨⟨⟨hb, hp⟩, he⟩, hc⟩ := h
  have hloop := insertLoop_ok_of_noFail env now st.nextId 0 logs
    (fun j hj => by
      have := he j (List.mem_range.mpr hj)
      rw [Nat.zero_add]
      exact Bool.eq_false_iff.mpr this)
  simp only [InsertBatch, hb, hp, Bool.false_eq_true, if_false, hloop, hc]

theorem InsertBatch_error (env : DBEnv) (st : DBState) (now : Time) (logs : List Log)
    (h : batchFails env logs.length = true) :
    InsertBatch env st now logs = .error () := by
  by_cases hb : env.beginFail = true
  · simp [InsertBatch, hb]
  · by_cases hp : env.prepareFail = true
    · simp [InsertBatch, hb, hp]
    · by_cases hhe : ∃ j, j < logs.length ∧ env.execFail j = true
      · obtain ⟨j, hj, hf⟩ := hhe
        have hloop := insertLoop_error_of_fail env now st.nextId 0 logs
          ⟨j, hj, by rwa [Nat.zero_add]⟩
        simp [InsertBatch, hb, hp, hloop]
      · have hc : env.commitFail = true := by
          simp only [batchFails, Bool.or_eq_true_iff, List.any_eq_true] at h
          rcases h with ((hb' | hp') | ⟨x, hx, hfx⟩) | hc
          · exact absurd hb' hb
          · exact absurd hp' hp
          · exact absurd ⟨x, List.mem_range.mp hx, hfx⟩ hhe
          · exact hc
        push_neg at hhe
        have hloop := insertLoop_ok_of_noFail env now st.nextId 0 logs
          (fun j hj => by
            rw [Nat.zero_add]
            exact Bool.eq_false_iff.mpr (hhe j hj))
        simp [InsertBatch, hb, hp, hloop, hc]

theorem mkRows_length (nid : Int) (now : Time) (ls : List Log) :
    (mkRows nid now ls).length = ls.length := by
  induction ls generalizing nid with
  | nil => rfl
  | cons a t ih => simp [mkRows, ih]

theorem mkRows_forall2 (nid : Int) (now : Time) (ls : List Log) :
    List.Forall₂ (fun (l : Log) (r : Row) =>
      r.service = l.service ∧ r.level = l.level ∧ r.message = l.message ∧
      r.host = l.host ∧
      (∀ t0, l.metadata = some (.bad t0) → r.metadata = none) ∧
      (∀ s, l.metadata = some (.doc s) → r.metadata = some (.wellFormed s)))
      ls (mkRows nid now ls) := by
  induction ls generalizing nid with
  | nil => exact List.Forall₂.nil
  | cons a t ih =>
    refine List.Forall₂.cons ⟨rfl, rfl, rfl, rfl, ?_, ?_⟩ (ih (nid + 1))
    · intro t0 hm
      simp [rowOfLog, batchBlob, hm, jsonMarshal]
    · intro s hm
      simp [rowOfLog, batchBlob, hm, jsonMarshal]

/-- C1: a multi-entry ingestion request runs all inserts in one transaction.
An entry whose metadata fails to serialize is still inserted, with empty
metadata, and the batch continues; if any underlying insert or transaction
operation fails, the whole batch is rolled back (the database is unchanged,
nothing is broadcast) and the request fails with the storage error (500);
consequently the number of persisted entries equals the number submitted,
or zero. -/
theorem ingest_batch_atomic (env : DBEnv) (st : ServerState) (now : Time)
    (req : Request) (logs : List Log)
    (hm : req.method = "POST")
    (hallow : (serverAllow st.limiter (getClientIP req) now).1 = true)
    (hsize : req.bodySize ≤ maxBodySize)
    (hdec : decodedLogs req.payload = some logs)
    (hmulti : 1 < logs.length)
    (hvalid : ∀ l ∈ logs, goTrimSpace l.service ≠ "" ∧ goTrimSpace l.level ≠ "" ∧
      goTrimSpace l.message ≠ "") :
    (batchFails env logs.length = false →
      (handleIngest env st now req).1 = .created ∧
      ∃ newRows : List Row,
        (handleIngest env st now req).2.db.rows = st.db.rows ++ newRows ∧
        newRows.length = logs.length ∧
        List.Forall₂ (fun (l : Log) (r : Row) =>
          r.service = l.service ∧ r.level = l.level ∧ r.message = l.message ∧
          r.host = l.host ∧
          (∀ t0, l.metadata = some (.bad t0) → r.metadata = none) ∧
          (∀ s, l.metadata = some (.doc s) → r.metadata = some (.wellFormed s)))
          (logs.map (defaultTimestamp now)) newRows) ∧
    (batchFails env logs.length = true →
      (handleIngest env st now req).1 = .storageError ∧
      (handleIngest env st now req).2.db = st.db ∧
      (handleIngest env st now req).2.hub = st.hub) ∧
    ((handleIngest env st now req).2.db.rows.length = st.db.rows.length + logs.length ∨
      (handleIngest env st now req).2.db.rows.length = st.db.rows.length) := by
  have hprep : prepareLogs now 0 logs = .ok (logs.map (defaultTimestamp now)) :=
    prepareLogs_ok now 0 logs (fun l hl => validateLog_none_of_nonblank (hvalid l hl))
  have hnsize : ¬ maxBodySize < req.bodySize := not_lt.mpr hsize
  obtain ⟨a, t1, rfl⟩ : ∃ a t1, logs = a :: t1 := by
    cases logs with
    | nil => simp at hmulti
    | cons a t1 => exact ⟨a, t1, rfl⟩
  obtain ⟨b, t2, rfl⟩ : ∃ b t2, t1 = b :: t2 := by
    cases t1 with
    | nil => simp at hmulti
    | cons b t2 => exact ⟨b, t2, rfl⟩
  have hprep2 : prepareLogs now 0 (a :: b :: t2) =
      .ok (defaultTimestamp now a :: defaultTimestamp now b ::
        t2.map (defaultTimestamp now)) := by
    simpa using hprep
  have hlen : (defaultTimestamp now a :: defaultTimestamp now b ::
      t2.map (defaultTimestamp now)).length = (a :: b :: t2).length := by
    simp
  by_cases hf : batchFails env (a :: b :: t2).length = true
  · have hins := InsertBatch_error env st.db now
      (defaultTimestamp now a :: defaultTimestamp now b :: t2.map (defaultTimestamp now))
      (by rwa [hlen])
    have hred : handleIngest env st now req =
        (.storageError, { st with limiter := (serverAllow st.limiter (getClientIP req) now).2 }) := by
      simp only [handleIngest, hm, ne_eq, not_true_eq_false, if_false, hallow,
        Bool.not_true, Bool.false_eq_true, hnsize, hdec, hprep2, hins, reduceIte]
    refine ⟨?_, ?_, ?_⟩
    · intro hff
      rw [hff] at hf
      exact absurd hf Bool.false_ne_true
    · intro _
      rw [hred]
      exact ⟨rfl, rfl, rfl⟩
    · right
      rw [hred]
  · have hf0 : batchFails env (a :: b :: t2).length = false := Bool.eq_false_iff.mpr hf
    have hins := InsertBatch_ok env st.db now
      (defaultTimestamp now a :: defaultTimestamp now b :: t2.map (defaultTimestamp now))
      (by rwa [hlen])
    have hred : handleIngest env st now req =
        (.created,
         { st with
             limiter := (serverAllow st.limiter (getClientIP req) now).2,
             db := { st.db with
               rows := st.db.rows ++ mkRows st.db.nextId now
                 (defaultTimestamp now a :: defaultTimestamp now b ::
                   t2.map (defaultTimestamp now)),
               nextId := st.db.nextId +
                 (((defaultTimestamp now a :: defaultTimestamp now b ::
                   t2.map (defaultTimestamp now)).length : Nat) : Int) },
             hub := broadcastLogs st.hub
               (defaultTimestamp now a :: defaultTimestamp now b ::
                 t2.map (defaultTimestamp now)) }) := by
      simp only [handleIngest, hm, ne_eq, not_true_eq_false, if_false, hallow,
        Bool.not_true, Bool.false_eq_true, hnsize, hdec, hprep2, hins, reduceIte]
    have hrows : (handleIngest env st now req).2.db.rows =
        st.db.rows ++ mkRows st.db.nextId now
          (defaultTimestamp now a :: defaultTimestamp now b ::
            t2.map (defaultTimestamp now)) := by
      rw [hred]
    refine ⟨?_, ?_, ?_⟩
    · intro _
      refine ⟨by rw [hred], mkRows st.db.nextId now
        (defaultTimestamp now a :: defaultTimestamp now b ::
          t2.map (defaultTimestamp now)), hrows, ?_, ?_⟩
      · rw [mkRows_length, hlen]
      · have h2 := mkRows_forall2 st.db.nextId now
          (defaultTimestamp now a :: defaultTimestamp now b ::
            t2.map (defaultTimestamp now))
        simpa using h2
    · intro hff
      rw [hff] at hf0
      exact absurd hf0 (by simp)
    · left
      rw [hrows]
      simp [mkRows_length]

/-- Concrete check of batch atomicity: a two-entry batch whose second entry
has unmarshalable metadata succeeds (201) in a failure-free environment,
while in an environment where the second insert Exec fails the request is
the storage error and the database is unchanged (empty). -/
theorem ingest_batch_atomic_witness :
    (handleIngest {} { limiter := { rate := 1, burst := 1 } } 3
      { payload := .arr [
          { service := "api", level := "ERROR", message := "db timeout", host := "h1" },
          { service := "web", level := "INFO", message := "ok",
            metadata := some (.bad "channel") }] }).1 = .created ∧
    (handleIngest { execFail := fun i => i == 1 }
      { limiter := { rate := 1, burst := 1 } } 3
      { payload := .arr [
          { service := "api", level := "ERROR", message := "db timeout", host := "h1" },
          { service := "web", level := "INFO", message := "ok",
            metadata := some (.bad "channel") }] }).1 = .storageError ∧
    (handleIngest { execFail := fun i => i == 1 }
      { limiter := { rate := 1, burst := 1 } } 3
      { payload := .arr [
          { service := "api", level := "ERROR", message := "db timeout", host := "h1" },
          { service := "web", level := "INFO", message := "ok",
            metadata := some (.bad "channel") }] }).2.db = {} := by
  have T1 := (ingest_batch_atomic {} { limiter := { rate := 1, burst := 1 } } 3
    { payload := .arr [
        { service := "api", level := "ERROR", message := "db timeout", host := "h1" },
        { service := "web", level := "INFO", message := "ok",
          metadata := some (.bad "channel") }] }
    [{ service := "api", level := "ERROR", message := "db timeout", host := "h1" },
     { service := "web", level := "INFO", message := "ok",
       metadata := some (.bad "channel") }]
    rfl (by rw [serverAllow_fresh] <;> rfl) (by decide) rfl (by decide)
    (by intro l hl
        fin_cases hl <;> exact of_decide_eq_true rfl)).1 (by decide)
  have T2 := (ingest_batch_atomic { execFail := fun i => i == 1 }
    { limiter := { rate := 1, burst := 1 } } 3
    { payload := .arr [
        { service := "api", level := "ERROR", message := "db timeout", host := "h1" },
        { service := "web", level := "INFO", message := "ok",
          metadata := some (.bad "channel") }] }
    [{ service := "api", level := "ERROR", message := "db timeout", host := "h1" },
     { service := "web", level := "INFO", message := "ok",
       metadata := some (.bad "channel") }]
    rfl (by rw [serverAllow_fresh] <;> rfl) (by decide) rfl (by decide)
    (by intro l hl
        fin_cases hl <;> exact of_decide_eq_true rfl)).2.1 (by decide)
  exact ⟨T1.1, T2.1, T2.2.1⟩

end Locog
